import Mathlib

/-!
# Verification of the go-echo-mongo rate-limiting subsystem

Shallow embedding of the four rate-limiting strategies (fixed window,
sliding window, token bucket, leaky bucket) from
`pkg/ratelimit/strategy/` and the Redis-backed counter repository
`internal/repository/redisrepo/ratelimit_repository.go`.

Modelling conventions:
* Go `float64` quantities (token counts, rates, seconds) are embedded as
  exact rationals `ℚ`; Go's `int(x)` / `int64(x)` float-to-int conversion
  (truncation toward zero) is `goTrunc`.
* Go `int64` division `/` and remainder `%` are `Int.tdiv` / `Int.tmod`
  (both truncate toward zero, as in Go).
* Timestamps (`time.Time`) are rationals in Unix seconds; `time.Duration`
  values are integers in nanoseconds, and `Duration.Seconds()` is the
  rational `d / 1e9`.
* The counter store (Redis) is a total map from keys to counts together
  with a TTL map; `INCR` on an absent key yields 1, a non-incrementing
  read of an absent key yields 0, exactly as the repository's `Check`
  returns. The store itself is error-free in the model (transport
  failures are outside the embedding); the bucket-state store in
  addition distinguishes an absent key and a stored blob that fails to
  deserialize, which the Go code turns into fresh state resp. an error.
-/

/-- Go's float-to-integer conversion `int64(x)` / `int(x)`: truncation
toward zero. For a rational `num/den` (with `den > 0`) this is the
truncated integer division of the numerator by the denominator. -/
def goTrunc (x : ℚ) : Int :=
  x.num.tdiv (x.den : Int)

/-- `int64(d.Seconds())` for a Go duration `d` in nanoseconds: the float
seconds value `d / 1e9` truncated toward zero. Both windowed strategies
divide `now.Unix()` by this quantity with no guard against it being 0. -/
def durSecondsInt64 (d : Int) : Int :=
  goTrunc ((d : ℚ) / 1000000000)

/-- The exact (float) value of `d.Seconds()` for a duration `d` in
nanoseconds, used as the divisor in the sliding window's `offset`. -/
def durSecondsQ (d : Int) : ℚ :=
  (d : ℚ) / 1000000000

/-! ## Decimal formatting of window indices

The strategies build store keys with `fmt.Sprintf("%s:%s:%d", ...)`; the
`%d` verb renders the window index in decimal (with a leading `-` for
negatives). We embed that formatting explicitly (structural recursion on
a fuel argument so that the kernel can evaluate it), since key
disjointness arguments need the characters of the rendered number. -/

/-- The decimal digit character for `d` (`d ≤ 9`). -/
def digitChar (d : Nat) : Char :=
  match d with
  | 0 => '0' | 1 => '1' | 2 => '2' | 3 => '3' | 4 => '4'
  | 5 => '5' | 6 => '6' | 7 => '7' | 8 => '8' | _ => '9'

/-- Numeric value of a decimal digit character (inverse of `digitChar`),
used to prove the decimal rendering injective. -/
def digitVal (c : Char) : Nat := c.toNat - 48

/-- Value of a most-significant-first digit string. -/
def charsVal (l : List Char) : Nat := l.foldl (fun a c => 10 * a + digitVal c) 0

/-- Decimal digits of `n`, most significant first; `fuel` bounds the
recursion depth (any `fuel > n` is enough). -/
def natDecimalCharsAux : Nat → Nat → List Char
  | 0, _ => []
  | fuel + 1, n =>
    if n < 10 then [digitChar n]
    else natDecimalCharsAux fuel (n / 10) ++ [digitChar (n % 10)]

/-- Decimal digits of a natural number, most significant first. -/
def natDecimalChars (n : Nat) : List Char :=
  natDecimalCharsAux (n + 1) n

/-- Decimal rendering of a Go `int64`, as produced by `fmt`'s `%d`. -/
def intDecimalStr : Int → String
  | .ofNat n => ⟨natDecimalChars n⟩
  | .negSucc m => ⟨'-' :: natDecimalChars (m + 1)⟩

/-! ## Counter store (windowed strategies)

`rateLimitRepository` over Redis: `IncrementPreserveTTL` performs an
atomic `INCR` (absent key counts as 0, so the first increment returns 1)
and sets the expiration only when the key is new (`val == 1`) and the
default expiration is positive; `Check` reads without incrementing,
returning 0 for an absent key. -/

/-- State of the Redis counter store: a count per key (absent = 0) and an
optional TTL (nanoseconds) per key. -/
structure CounterStore where
  count : String → Nat
  ttl : String → Option Int

/-- `rateLimitRepository.IncrementPreserveTTL`: increments the counter and
sets the provided expiration only if the key is new (`val == 1`) and the
expiration is positive; returns the new count. -/
def incrementPreserveTTL (store : CounterStore) (key : String) (defaultExpiration : Int) :
    Nat × CounterStore :=
  let val := store.count key + 1
  let store' : CounterStore :=
    { store with count := fun k => if k = key then val else store.count k }
  if val = 1 ∧ 0 < defaultExpiration then
    (val, { store' with ttl := fun k => if k = key then some defaultExpiration else store'.ttl k })
  else
    (val, store')

/-- `rateLimitRepository.Check`: non-incrementing read; 0 when absent. -/
def checkCount (store : CounterStore) (key : String) : Nat :=
  store.count key

/-! ## Fixed window strategy (`FixedWindowStore`) -/

/-- Configuration of `FixedWindowStore`: `limit` (max requests per
window, Go `int`) and `windowSize` (Go `time.Duration`, nanoseconds).
The key prefix is the constant `"rate_limit_fixed_window"`. -/
structure FixedWindowStore where
  limit : Int
  windowSize : Int

/-- Key built by the fixed-window strategy:
`fmt.Sprintf("%s:%s:%d", "rate_limit_fixed_window", identifier, windowNum)`. -/
def fixedWindowKey (identifier : String) (windowNum : Int) : String :=
  "rate_limit_fixed_window:" ++ identifier ++ ":" ++ intDecimalStr windowNum

/-- The window index `time.Now().Unix() / int64(s.windowSize.Seconds())`
computed by both `FixedWindowStore.Allow` and `GetRateLimitInfo`. -/
def FixedWindowStore.windowNum (s : FixedWindowStore) (nowUnix : Int) : Int :=
  nowUnix.tdiv (durSecondsInt64 s.windowSize)

/-- `FixedWindowStore.Allow`: increments the counter of the current
window's key unconditionally (via `IncrementPreserveTTL` with the window
size as default expiration) and permits iff `count <= s.limit`. -/
def FixedWindowStore.Allow (s : FixedWindowStore) (store : CounterStore)
    (identifier : String) (nowUnix : Int) : Bool × CounterStore :=
  let key := fixedWindowKey identifier (s.windowNum nowUnix)
  let r := incrementPreserveTTL store key s.windowSize
  (decide ((r.1 : Int) ≤ s.limit), r.2)

/-- Result record `ratelimit.RateLimitResponse`. -/
structure RateLimitResponse where
  limit : Int
  remaining : Int
  reset : Int
deriving DecidableEq

/-- `FixedWindowStore.GetRateLimitInfo`: non-incrementing read of the
current window's counter; `remaining = max 0 (limit - count)` (the code
clamps negatives to 0), `reset = (windowNum+1) * int64(windowSize.Seconds())`. -/
def FixedWindowStore.GetRateLimitInfo (s : FixedWindowStore) (store : CounterStore)
    (identifier : String) (nowUnix : Int) : RateLimitResponse :=
  let windowNum := s.windowNum nowUnix
  let key := fixedWindowKey identifier windowNum
  let count := checkCount store key
  let nextWindow := (windowNum + 1) * durSecondsInt64 s.windowSize
  let remaining := if s.limit - (count : Int) < 0 then 0 else s.limit - (count : Int)
  { limit := s.limit, remaining := remaining, reset := nextWindow }

/-- Runs a sequence of `FixedWindowStore.Allow` calls (one per timestamp
in `times`), returning the list of decisions and the final store. -/
def fixedWindowRun (s : FixedWindowStore) (identifier : String) :
    List Int → CounterStore → List Bool × CounterStore
  | [], store => ([], store)
  | t :: ts, store =>
    let r := s.Allow store identifier t
    let rest := fixedWindowRun s identifier ts r.2
    (r.1 :: rest.1, rest.2)

/-! ## Sliding window strategy (`SlidingWindowStore`)

`Allow` reads the current- and previous-window counters without
incrementing, weighs the previous window by the fraction of it still in
view, denies when `weightedCount >= limit`, and otherwise increments the
current-window counter with default expiration `windowSize * 2`. To make
the store writes of a call observable, `Allow` also returns the list of
write operations it performed. -/

/-- A write against the counter store: `IncrementPreserveTTL key defaultExpiration`. -/
structure CounterWrite where
  key : String
  defaultExpiration : Int
deriving DecidableEq

/-- Configuration of `SlidingWindowStore`. -/
structure SlidingWindowStore where
  limit : Int
  windowSize : Int

/-- Key built by the sliding-window strategy. -/
def slidingWindowKey (identifier : String) (windowNum : Int) : String :=
  "rate_limit_sliding_window:" ++ identifier ++ ":" ++ intDecimalStr windowNum

/-- The current window index used by `SlidingWindowStore.Allow` and
`GetRateLimitInfo`. -/
def SlidingWindowStore.windowNum (s : SlidingWindowStore) (nowUnix : Int) : Int :=
  nowUnix.tdiv (durSecondsInt64 s.windowSize)

/-- The fraction of the current window already elapsed:
`float64(now.Unix() % int64(windowSize.Seconds())) / windowSize.Seconds()`. -/
def SlidingWindowStore.offset (s : SlidingWindowStore) (nowUnix : Int) : ℚ :=
  ((nowUnix.tmod (durSecondsInt64 s.windowSize) : ℚ)) / durSecondsQ s.windowSize

/-- The weighted request count over the previous and current windows:
`int(float64(previousCount) * (1 - offset)) + currentCount`. -/
def SlidingWindowStore.weightedCount (s : SlidingWindowStore) (store : CounterStore)
    (identifier : String) (nowUnix : Int) : Int :=
  let currentWindow := s.windowNum nowUnix
  let currentCount := checkCount store (slidingWindowKey identifier currentWindow)
  let previousCount := checkCount store (slidingWindowKey identifier (currentWindow - 1))
  goTrunc ((previousCount : ℚ) * (1 - s.offset nowUnix)) + (currentCount : Int)

/-- `SlidingWindowStore.Allow`: denies without writing when the weighted
count reaches the limit, otherwise increments the current-window counter
with default expiration `windowSize * 2` and permits. -/
def SlidingWindowStore.Allow (s : SlidingWindowStore) (store : CounterStore)
    (identifier : String) (nowUnix : Int) : Bool × CounterStore × List CounterWrite :=
  let currentKey := slidingWindowKey identifier (s.windowNum nowUnix)
  if s.weightedCount store identifier nowUnix ≥ s.limit then
    (false, store, [])
  else
    let r := incrementPreserveTTL store currentKey (s.windowSize * 2)
    (true, r.2, [{ key := currentKey, defaultExpiration := s.windowSize * 2 }])

/-- `SlidingWindowStore.GetRateLimitInfo`: the same weighted computation
without incrementing; `remaining` is clamped at 0 and `reset` is the end
of the current window. -/
def SlidingWindowStore.GetRateLimitInfo (s : SlidingWindowStore) (store : CounterStore)
    (identifier : String) (nowUnix : Int) : RateLimitResponse :=
  let weighted := s.weightedCount store identifier nowUnix
  let remaining := if s.limit - weighted < 0 then 0 else s.limit - weighted
  let nextReset := (s.windowNum nowUnix + 1) * durSecondsInt64 s.windowSize
  { limit := s.limit, remaining := remaining, reset := nextReset }

/-! ## Bucket-state store (token and leaky bucket)

`GetState` on Redis returns a distinguished "not found" error for an
absent key (which `getBucketState` special-cases into fresh state) and
otherwise the stored blob, which may fail to `json.Unmarshal`. The store
maps each key either to nothing, to a well-formed serialized state, or
to a blob that does not deserialize. -/

/-- A stored bucket-state blob: either deserializes to a state `σ` or is
malformed (fails `json.Unmarshal`). -/
inductive StateBlob (σ : Type) where
  | good (st : σ)
  | bad
deriving DecidableEq

/-- The bucket-state store: one optional blob per key. -/
def BucketStore (σ : Type) := String → Option (StateBlob σ)

/-- Equality of `Except` results is decidable componentwise (used to
evaluate concrete runs of the bucket strategies). -/
instance {ε α : Type} [DecidableEq ε] [DecidableEq α] : DecidableEq (Except ε α) := fun a b =>
  match a, b with
  | .error e₁, .error e₂ =>
    if h : e₁ = e₂ then .isTrue (by rw [h]) else .isFalse (by simp [h])
  | .error _, .ok _ => .isFalse (by simp)
  | .ok _, .error _ => .isFalse (by simp)
  | .ok a₁, .ok a₂ =>
    if h : a₁ = a₂ then .isTrue (by rw [h]) else .isFalse (by simp [h])

/-! ## Token bucket strategy (`TokenBucketStore`) -/

/-- `tokenBucketState`: current token count (Go `float64`) and time of
the last refill (Unix seconds). -/
structure TokenBucketState where
  tokens : ℚ
  lastRefill : ℚ
deriving DecidableEq

/-- Configuration of `TokenBucketStore`: `rate` (tokens per second),
`burst` (maximum bucket size), `expiresIn` (GC TTL for the state blob,
nanoseconds). -/
structure TokenBucketStore where
  rate : ℚ
  burst : Int
  expiresIn : Int

/-- Key built by the token-bucket strategy:
`fmt.Sprintf("%s:%s", "rate_limit_token_bucket", identifier)`. -/
def tokenBucketKey (identifier : String) : String :=
  "rate_limit_token_bucket:" ++ identifier

/-- `TokenBucketStore.getBucketState`: an absent key ("not found" error)
initializes a full bucket `{tokens: burst, lastRefill: now}`; a stored
blob that fails to deserialize is an error, not a reset. -/
def TokenBucketStore.getBucketState (s : TokenBucketStore) (store : BucketStore TokenBucketState)
    (key : String) (now : ℚ) : Except String TokenBucketState :=
  match store key with
  | none => .ok { tokens := (s.burst : ℚ), lastRefill := now }
  | some .bad => .error "failed to unmarshal token bucket state"
  | some (.good st) => .ok st

/-- Writes a serialized state to the store (`saveBucketState`). -/
def saveBucketState {σ : Type} (store : BucketStore σ) (key : String) (st : σ) :
    BucketStore σ :=
  fun k => if k = key then some (.good st) else store k

/-- `TokenBucketStore.Allow`: refills `elapsed * rate` tokens capped at
`burst`, denies without persisting when fewer than one token is
available, otherwise consumes one token and persists
`{tokens: newTokens - 1, lastRefill: now}`. -/
def TokenBucketStore.Allow (s : TokenBucketStore) (store : BucketStore TokenBucketState)
    (identifier : String) (now : ℚ) :
    Except String (Bool × BucketStore TokenBucketState) :=
  let key := tokenBucketKey identifier
  match s.getBucketState store key now with
  | .error e => .error ("failed to get bucket state: " ++ e)
  | .ok state =>
    let elapsed := now - state.lastRefill
    let newTokens := min (state.tokens + elapsed * s.rate) (s.burst : ℚ)
    if newTokens < 1 then
      .ok (false, store)
    else
      .ok (true, saveBucketState store key
        { tokens := newTokens - 1, lastRefill := now })

/-- `TokenBucketStore.GetRateLimitInfo`: the same refill computation
without consuming; `remaining = int(currentTokens)` and `reset` is the
estimated time until the bucket is full again. -/
def TokenBucketStore.GetRateLimitInfo (s : TokenBucketStore)
    (store : BucketStore TokenBucketState) (identifier : String) (now : ℚ) :
    Except String RateLimitResponse :=
  let key := tokenBucketKey identifier
  match s.getBucketState store key now with
  | .error e => .error e
  | .ok state =>
    let elapsed := now - state.lastRefill
    let currentTokens := min (state.tokens + elapsed * s.rate) (s.burst : ℚ)
    let tokensNeeded := (s.burst : ℚ) - currentTokens
    let timeToFull := goTrunc (tokensNeeded / s.rate)
    .ok { limit := s.burst, remaining := goTrunc currentTokens,
          reset := ⌊now + (timeToFull : ℚ)⌋ }

/-! ## Leaky bucket strategy (`LeakyBucketStore`) -/

/-- `leakyBucketState`: current water level (Go `int`) and time of the
last leak (Unix seconds). -/
structure LeakyBucketState where
  water : Int
  lastLeak : ℚ
deriving DecidableEq

/-- Configuration of `LeakyBucketStore`: `capacity`, `leakRate` (units
per second), `expiresIn` (GC TTL, nanoseconds). -/
structure LeakyBucketStore where
  capacity : Int
  leakRate : ℚ
  expiresIn : Int

/-- Key built by the leaky-bucket strategy. -/
def leakyBucketKey (identifier : String) : String :=
  "rate_limit_leaky_bucket:" ++ identifier

/-- `LeakyBucketStore.getBucketState`: an absent key initializes an
empty bucket `{water: 0, lastLeak: now}`; a malformed blob is an error. -/
def LeakyBucketStore.getBucketState (_s : LeakyBucketStore) (store : BucketStore LeakyBucketState)
    (key : String) (now : ℚ) : Except String LeakyBucketState :=
  match store key with
  | none => .ok { water := 0, lastLeak := now }
  | some .bad => .error "failed to unmarshal leaky bucket state"
  | some (.good st) => .ok st

/-- `LeakyBucketStore.Allow`: leaks `int(elapsed * leakRate)` units,
clamped at 0. When the decayed level still reaches capacity it persists
the decayed state (`water` updated, `lastLeak` untouched) and denies;
otherwise it adds one unit, sets `lastLeak := now`, persists, and
permits. -/
def LeakyBucketStore.Allow (s : LeakyBucketStore) (store : BucketStore LeakyBucketState)
    (identifier : String) (now : ℚ) :
    Except String (Bool × BucketStore LeakyBucketState) :=
  let key := leakyBucketKey identifier
  match s.getBucketState store key now with
  | .error e => .error e
  | .ok state =>
    let elapsed := now - state.lastLeak
    let leaked := goTrunc (elapsed * s.leakRate)
    let decayed := max 0 (state.water - leaked)
    if decayed ≥ s.capacity then
      .ok (false, saveBucketState store key
        { water := decayed, lastLeak := state.lastLeak })
    else
      .ok (true, saveBucketState store key
        { water := decayed + 1, lastLeak := now })

/-- `LeakyBucketStore.GetRateLimitInfo`: the same decay computation
without adding water; `remaining` is clamped at 0 and `reset` estimates
when the bucket empties. -/
def LeakyBucketStore.GetRateLimitInfo (s : LeakyBucketStore)
    (store : BucketStore LeakyBucketState) (identifier : String) (now : ℚ) :
    Except String RateLimitResponse :=
  let key := leakyBucketKey identifier
  match s.getBucketState store key now with
  | .error e => .error e
  | .ok state =>
    let elapsed := now - state.lastLeak
    let leaked := goTrunc (elapsed * s.leakRate)
    let currentWater := max 0 (state.water - leaked)
    let remaining := if s.capacity - currentWater < 0 then 0 else s.capacity - currentWater
    let reset :=
      if currentWater > 0 then ⌊now⌋ + goTrunc ((currentWater : ℚ) / s.leakRate)
      else ⌊now⌋
    .ok { limit := s.capacity, remaining := remaining, reset := reset }

/-! ## Identifier extraction

The `IdentifierExtractor` used by every strategy's middleware: prefer
the `X-API-Key` header, else fall back to the client IP; both branches
return a nil error. -/

/-- The middleware `IdentifierExtractor` as a function of the request's
`X-API-Key` header value and its `RealIP()`. -/
def identifierExtractor (apiKey realIP : String) : Except String String :=
  if apiKey ≠ "" then .ok ("api:" ++ apiKey)
  else .ok ("ip:" ++ realIP)


/-! ## Properties of the decimal rendering and of key construction -/

/-- A small lemma toolkit showing that the decimal rendering produces
only digit characters and is injective, so that the `prefix:identifier:window`
keys of the windowed strategies are injective in the pair
`(identifier, window)`. -/
theorem digitChar_ne_colon (d : Nat) : digitChar d ≠ ':' := by
  unfold digitChar; split <;> decide

theorem digitChar_ne_dash (d : Nat) : digitChar d ≠ '-' := by
  unfold digitChar; split <;> decide

theorem digitVal_digitChar : ∀ d < 10, digitVal (digitChar d) = d := by decide

theorem charsVal_append_singleton (xs : List Char) (c : Char) :
    charsVal (xs ++ [c]) = 10 * charsVal xs + digitVal c := by
  simp [charsVal, List.foldl_append]

theorem natDecimalCharsAux_spec : ∀ fuel n, n < fuel →
    charsVal (natDecimalCharsAux fuel n) = n ∧
    ∀ c ∈ natDecimalCharsAux fuel n, ∃ d, d < 10 ∧ c = digitChar d := by
  intro fuel
  induction fuel with
  | zero => intro n h; omega
  | succ fuel ih =>
    intro n h
    by_cases h10 : n < 10
    · refine ⟨?_, ?_⟩
      · simp [natDecimalCharsAux, h10, charsVal, digitVal_digitChar n h10]
      · intro c hc
        simp [natDecimalCharsAux, h10] at hc
        exact ⟨n, h10, hc⟩
    · have hdiv : n / 10 < fuel := by
        have h1 : n / 10 < n := Nat.div_lt_self (by omega) (by omega)
        omega
      obtain ⟨hv, hd⟩ := ih (n / 10) hdiv
      refine ⟨?_, ?_⟩
      · simp only [natDecimalCharsAux, if_neg h10]
        rw [charsVal_append_singleton, hv, digitVal_digitChar (n % 10) (Nat.mod_lt n (by omega))]
        omega
      · intro c hc
        simp only [natDecimalCharsAux, if_neg h10, List.mem_append, List.mem_singleton] at hc
        rcases hc with hc | hc
        · exact hd c hc
        · exact ⟨n % 10, Nat.mod_lt n (by omega), hc⟩

theorem charsVal_natDecimalChars (n : Nat) : charsVal (natDecimalChars n) = n :=
  (natDecimalCharsAux_spec (n + 1) n (Nat.lt_succ_self n)).1

theorem natDecimalChars_digits (n : Nat) :
    ∀ c ∈ natDecimalChars n, ∃ d, d < 10 ∧ c = digitChar d :=
  (natDecimalCharsAux_spec (n + 1) n (Nat.lt_succ_self n)).2

theorem natDecimalChars_injective : Function.Injective natDecimalChars := by
  intro a b h
  have := charsVal_natDecimalChars a
  rw [h, charsVal_natDecimalChars] at this
  omega

theorem colon_not_mem_natDecimalChars (n : Nat) : ':' ∉ natDecimalChars n := by
  intro hmem
  obtain ⟨d, _, hd⟩ := natDecimalChars_digits n ':' hmem
  exact digitChar_ne_colon d hd.symm

theorem dash_not_mem_natDecimalChars (n : Nat) : '-' ∉ natDecimalChars n := by
  intro hmem
  obtain ⟨d, _, hd⟩ := natDecimalChars_digits n '-' hmem
  exact digitChar_ne_dash d hd.symm

theorem intDecimalStr_injective : Function.Injective intDecimalStr := by
  intro a b h
  cases a with
  | ofNat n =>
    cases b with
    | ofNat m =>
      have h' : natDecimalChars n = natDecimalChars m := congrArg String.data h
      exact congrArg Int.ofNat (natDecimalChars_injective h')
    | negSucc m =>
      have h' : natDecimalChars n = '-' :: natDecimalChars (m + 1) := congrArg String.data h
      exact absurd (h' ▸ List.mem_cons_self '-' _) (dash_not_mem_natDecimalChars n)
  | negSucc n =>
    cases b with
    | ofNat m =>
      have h' : '-' :: natDecimalChars (n + 1) = natDecimalChars m := congrArg String.data h
      exact absurd (h'.symm ▸ List.mem_cons_self '-' _) (dash_not_mem_natDecimalChars m)
    | negSucc m =>
      have h' : '-' :: natDecimalChars (n + 1) = '-' :: natDecimalChars (m + 1) :=
        congrArg String.data h
      have h'' := natDecimalChars_injective (List.tail_eq_of_cons_eq h')
      have : n = m := by omega
      exact this ▸ rfl

theorem colon_not_mem_intDecimalStr (w : Int) : ':' ∉ (intDecimalStr w).data := by
  cases w with
  | ofNat n => exact colon_not_mem_natDecimalChars n
  | negSucc m =>
    intro hmem
    rcases List.mem_cons.mp hmem with h | h
    · exact absurd h (by decide)
    · exact colon_not_mem_natDecimalChars (m + 1) h

theorem append_cons_inj_of_not_mem {α : Type} {c : α} :
    ∀ {x₁ : List α} {y₁ : List α} {x₂ y₂ : List α},
      x₁ ++ c :: y₁ = x₂ ++ c :: y₂ → c ∉ x₁ → c ∉ x₂ → x₁ = x₂ ∧ y₁ = y₂ := by
  intro x₁
  induction x₁ with
  | nil =>
    intro y₁ x₂ y₂ h h₁ h₂
    cases x₂ with
    | nil => simpa using h
    | cons b bs =>
      simp only [List.nil_append, List.cons_append, List.cons.injEq] at h
      exact absurd (h.1 ▸ List.mem_cons_self b bs) h₂
  | cons a as ih =>
    intro y₁ x₂ y₂ h h₁ h₂
    cases x₂ with
    | nil =>
      simp only [List.cons_append, List.nil_append, List.cons.injEq] at h
      exact absurd (h.1.symm ▸ List.mem_cons_self a as) h₁
    | cons b bs =>
      simp only [List.cons_append, List.cons.injEq] at h
      have := ih h.2 (fun hm => h₁ (List.mem_cons_of_mem a hm))
        (fun hm => h₂ (List.mem_cons_of_mem b hm))
      exact ⟨by rw [h.1, this.1], this.2⟩

theorem append_cons_inj_of_not_mem_right {α : Type} {c : α} {x₁ y₁ x₂ y₂ : List α}
    (h : x₁ ++ c :: y₁ = x₂ ++ c :: y₂) (h₁ : c ∉ y₁) (h₂ : c ∉ y₂) :
    x₁ = x₂ ∧ y₁ = y₂ := by
  have hrev := congrArg List.reverse h
  simp only [List.reverse_append, List.reverse_cons, List.append_assoc,
    List.singleton_append] at hrev
  have := append_cons_inj_of_not_mem hrev
    (fun hm => h₁ (List.mem_reverse.mp hm)) (fun hm => h₂ (List.mem_reverse.mp hm))
  exact ⟨List.reverse_injective this.2, List.reverse_injective this.1⟩

theorem windowKey_inj {p id₁ id₂ : String} {w₁ w₂ : Int}
    (h : p ++ id₁ ++ ":" ++ intDecimalStr w₁ = p ++ id₂ ++ ":" ++ intDecimalStr w₂) :
    id₁ = id₂ ∧ w₁ = w₂ := by
  have hd : p.data ++ id₁.data ++ ':' :: (intDecimalStr w₁).data
      = p.data ++ id₂.data ++ ':' :: (intDecimalStr w₂).data := by
    have := congrArg String.data h
    simpa [List.append_assoc] using this
  rw [List.append_assoc, List.append_assoc] at hd
  have hcancel := List.append_cancel_left hd
  have hparts := append_cons_inj_of_not_mem_right hcancel
    (colon_not_mem_intDecimalStr w₁) (colon_not_mem_intDecimalStr w₂)
  refine ⟨String.ext hparts.1, intDecimalStr_injective (String.ext hparts.2)⟩

/-! ## Arithmetic helpers -/

/-- Go's truncation agrees with the floor on nonnegative values. -/
theorem goTrunc_eq_floor (x : ℚ) (hx : 0 ≤ x) : goTrunc x = ⌊x⌋ := by
  rw [goTrunc, Rat.floor_def]
  exact Int.tdiv_eq_ediv (Rat.num_nonneg.mpr hx) (by positivity)

/-- For a nonnegative duration, `int64(d.Seconds())` is the floor of the
exact seconds value. -/
theorem durSecondsInt64_eq_floor (d : Int) (hd : 0 ≤ d) :
    durSecondsInt64 d = ⌊(d : ℚ) / 1000000000⌋ :=
  goTrunc_eq_floor _ (by positivity)

/-! ## Claims -/

/-- C10: Fixed Window and Sliding Window compute the window index as
`now.Unix() / int64(windowSize.Seconds())` (Sliding Window additionally
takes `now.Unix()` modulo that value) with no guard against a zero
divisor. For a `windowSize` of at least one second (`10^9` ns) the
divisor is positive, so the Go divisions are well defined; for any
nonnegative sub-second `windowSize` the divisor is zero (in Go the
division would panic; in this total embedding `windowNum` is still
defined, so "Allow and Info are total" holds under the precondition). -/
theorem windowDivisor_dichotomy (w : Int) :
    (10 ^ 9 ≤ w → 0 < durSecondsInt64 w) ∧
    (0 ≤ w → w < 10 ^ 9 → durSecondsInt64 w = 0) ∧
    (∀ (s : FixedWindowStore) (now : Int), s.windowSize = w →
      s.windowNum now = now.tdiv (durSecondsInt64 w)) ∧
    (∀ (s : SlidingWindowStore) (now : Int), s.windowSize = w →
      s.windowNum now = now.tdiv (durSecondsInt64 w) ∧
      s.offset now = ((now.tmod (durSecondsInt64 w) : ℚ)) / durSecondsQ w) := by
  refine ⟨?_, ?_, ?_, ?_⟩
  · intro h
    rw [durSecondsInt64_eq_floor w (by positivity)]
    have : (1 : ℤ) ≤ ⌊(w : ℚ) / 1000000000⌋ := by
      rw [Int.le_floor]
      rw [le_div_iff₀ (by norm_num)]
      push_cast
      exact_mod_cast by push_cast; linarith [h]
    omega
  · intro h0 h1
    rw [durSecondsInt64_eq_floor w h0]
    rw [Int.floor_eq_zero_iff]
    constructor
    · positivity
    · rw [div_lt_one (by norm_num)]
      exact_mod_cast h1
  · intro s now hs; rw [FixedWindowStore.windowNum, hs]
  · intro s now hs
    exact ⟨by rw [SlidingWindowStore.windowNum, hs], by rw [SlidingWindowStore.offset, hs]⟩

/-- Witness for C10 at `windowSize = 2s` (divisor positive) and
`windowSize = 0.5s` (divisor zero). -/
theorem windowDivisor_dichotomy_witness :
    ((10 : Int) ^ 9 ≤ 2 * 10 ^ 9 ∧ 0 < durSecondsInt64 (2 * 10 ^ 9)) ∧
    ((0 : Int) ≤ 5 * 10 ^ 8 ∧ 5 * 10 ^ 8 < (10 : Int) ^ 9 ∧
      durSecondsInt64 (5 * 10 ^ 8) = 0) :=
  ⟨⟨by decide, (windowDivisor_dichotomy (2 * 10 ^ 9)).1 (by decide)⟩,
   ⟨by decide, by decide, (windowDivisor_dichotomy (5 * 10 ^ 8)).2.1 (by decide) (by decide)⟩⟩

/-- C5 (corrected): the extractor never fails. When the `X-API-Key`
header is absent it returns `"ip:" ++ RealIP` with a nil error even when
the IP is also empty, so an identifier based on the empty origin is
passed through to `Allow` rather than being a hard failure. -/
theorem identifierExtractor_never_fails :
    (∀ apiKey realIP : String, ∃ identifier : String,
      identifierExtractor apiKey realIP = .ok identifier) ∧
    identifierExtractor "" "" = .ok "ip:" := by
  refine ⟨fun apiKey realIP => ?_, rfl⟩
  rw [identifierExtractor]
  by_cases h : apiKey = "" <;> simp [h]

/-- Counterexample to C5 as stated: with neither an API key nor an IP,
extraction succeeds (`.ok "ip:"`) instead of failing, and the
empty-origin-based key is handed to `Allow`. -/
theorem identifierExtractor_empty_ok :
    identifierExtractor "" "" = .ok "ip:" := rfl

/-- C2 (amended): on a stored leaky-bucket state with nonnegative
elapsed time and leak rate, when the decayed level
`max 0 (water - ⌊elapsed * leakRate⌋)` is at least `capacity`, `Allow`
denies and, before returning, persists the decayed water — but with
`lastLeak` left at its stored value, not updated to `now` (the code only
sets `lastLeak = now` on the permit path). -/
theorem leakyBucket_deny_persists_decayed (s : LeakyBucketStore)
    (store : BucketStore LeakyBucketState) (identifier : String) (now : ℚ)
    (st : LeakyBucketState)
    (hst : store (leakyBucketKey identifier) = some (.good st))
    (helapsed : 0 ≤ now - st.lastLeak) (hrate : 0 ≤ s.leakRate)
    (hcap : s.capacity ≤ max 0 (st.water - ⌊(now - st.lastLeak) * s.leakRate⌋)) :
    s.Allow store identifier now = .ok (false,
      saveBucketState store (leakyBucketKey identifier)
        { water := max 0 (st.water - ⌊(now - st.lastLeak) * s.leakRate⌋),
          lastLeak := st.lastLeak }) := by
  have htr : goTrunc ((now - st.lastLeak) * s.leakRate)
      = ⌊(now - st.lastLeak) * s.leakRate⌋ :=
    goTrunc_eq_floor _ (mul_nonneg helapsed hrate)
  simp only [LeakyBucketStore.Allow, LeakyBucketStore.getBucketState, hst, htr,
    ge_iff_le, hcap, if_true]

/-- Witness for the amended C2: capacity 1, leak rate 1/2, stored state
`{water := 1, lastLeak := 0}`, request at `now = 1`: nothing leaks
(`⌊1/2⌋ = 0`), the request is denied and the persisted state keeps
`lastLeak = 0`. -/
theorem leakyBucket_deny_persists_decayed_witness :
    ((fun k => if k = leakyBucketKey "x"
        then some (StateBlob.good ({ water := 1, lastLeak := 0 } : LeakyBucketState))
        else none) (leakyBucketKey "x")
      = some (.good ({ water := 1, lastLeak := 0 } : LeakyBucketState))) ∧
    (0 : ℚ) ≤ 1 - 0 ∧ (0 : ℚ) ≤ 1 / 2 ∧
    (1 : Int) ≤ max 0 (1 - ⌊((1 : ℚ) - 0) * (1 / 2)⌋) ∧
    LeakyBucketStore.Allow { capacity := 1, leakRate := 1 / 2, expiresIn := 10 ^ 9 }
      (fun k => if k = leakyBucketKey "x"
        then some (StateBlob.good ({ water := 1, lastLeak := 0 } : LeakyBucketState))
        else none) "x" 1
      = .ok (false, saveBucketState
          (fun k => if k = leakyBucketKey "x"
            then some (StateBlob.good ({ water := 1, lastLeak := 0 } : LeakyBucketState))
            else none) (leakyBucketKey "x")
          { water := max 0 (1 - ⌊((1 : ℚ) - 0) * (1 / 2)⌋), lastLeak := 0 }) :=
  ⟨by simp, by norm_num, by norm_num, by with_unfolding_all decide,
    leakyBucket_deny_persists_decayed { capacity := 1, leakRate := 1 / 2, expiresIn := 10 ^ 9 }
      (fun k => if k = leakyBucketKey "x"
        then some (StateBlob.good ({ water := 1, lastLeak := 0 } : LeakyBucketState))
        else none) "x" 1 { water := 1, lastLeak := 0 } (by simp) (by norm_num) (by norm_num)
      (by with_unfolding_all decide)⟩

/-- Counterexample to C2 as stated: at capacity 1, leak rate 1/2, stored
state `{water := 1, lastLeak := 0}` and `now = 1`, the deny path
persists `lastLeak = 0`, not the claimed `lastLeak = now = 1`. -/
theorem leakyBucket_deny_lastLeak_cex :
    (LeakyBucketStore.Allow { capacity := 1, leakRate := 1 / 2, expiresIn := 10 ^ 9 }
      (fun k => if k = leakyBucketKey "x"
        then some (StateBlob.good ({ water := 1, lastLeak := 0 } : LeakyBucketState))
        else none) "x" 1).map (fun r => (r.1, r.2 (leakyBucketKey "x")))
      = .ok (false, some (.good ({ water := 1, lastLeak := 0 } : LeakyBucketState)))
    ∧ ((0 : ℚ) ≠ 1) := by
  constructor
  · with_unfolding_all decide
  · norm_num

/-- Unfolding of `TokenBucketStore.Allow` on a stored, well-formed state. -/
theorem tokenBucket_allow_eq (s : TokenBucketStore) (store : BucketStore TokenBucketState)
    (identifier : String) (now : ℚ) (st : TokenBucketState)
    (hst : store (tokenBucketKey identifier) = some (.good st)) :
    s.Allow store identifier now =
      (if min (st.tokens + (now - st.lastRefill) * s.rate) ((s.burst : ℚ)) < 1
       then .ok (false, store)
       else .ok (true, saveBucketState store (tokenBucketKey identifier)
          { tokens := min (st.tokens + (now - st.lastRefill) * s.rate) ((s.burst : ℚ)) - 1,
            lastRefill := now })) := by
  simp only [TokenBucketStore.Allow, TokenBucketStore.getBucketState, hst]

/-- Unfolding of `LeakyBucketStore.Allow` on a stored, well-formed state. -/
theorem leakyBucket_allow_eq (s : LeakyBucketStore) (store : BucketStore LeakyBucketState)
    (identifier : String) (now : ℚ) (st : LeakyBucketState)
    (hst : store (leakyBucketKey identifier) = some (.good st)) :
    s.Allow store identifier now =
      (if max 0 (st.water - goTrunc ((now - st.lastLeak) * s.leakRate)) ≥ s.capacity
       then .ok (false, saveBucketState store (leakyBucketKey identifier)
          { water := max 0 (st.water - goTrunc ((now - st.lastLeak) * s.leakRate)),
            lastLeak := st.lastLeak })
       else .ok (true, saveBucketState store (leakyBucketKey identifier)
          { water := max 0 (st.water - goTrunc ((now - st.lastLeak) * s.leakRate)) + 1,
            lastLeak := now })) := by
  simp only [LeakyBucketStore.Allow, LeakyBucketStore.getBucketState, hst]

/-- C3: Token Bucket `Allow` treats an absent stored state as a full
bucket `{tokens: burst, lastRefill: now}`; on a stored state it computes
`newTokens = min(burst, tokens + elapsed * rate)`, permits iff
`newTokens >= 1`, persists `{tokens: newTokens - 1, lastRefill: now}`
exactly when it permits, and performs no store write (the store is
returned unchanged) when it denies. -/
theorem tokenBucket_allow_spec (s : TokenBucketStore) (store : BucketStore TokenBucketState)
    (identifier : String) (now : ℚ) (st : TokenBucketState)
    (hst : store (tokenBucketKey identifier) = some (.good st)) :
    (∀ store₀ : BucketStore TokenBucketState, store₀ (tokenBucketKey identifier) = none →
      s.getBucketState store₀ (tokenBucketKey identifier) now
        = .ok { tokens := (s.burst : ℚ), lastRefill := now }) ∧
    (1 ≤ min (st.tokens + (now - st.lastRefill) * s.rate) ((s.burst : ℚ)) →
      s.Allow store identifier now = .ok (true,
        saveBucketState store (tokenBucketKey identifier)
          { tokens := min (st.tokens + (now - st.lastRefill) * s.rate) ((s.burst : ℚ)) - 1,
            lastRefill := now })) ∧
    (min (st.tokens + (now - st.lastRefill) * s.rate) ((s.burst : ℚ)) < 1 →
      s.Allow store identifier now = .ok (false, store)) := by
  refine ⟨?_, ?_, ?_⟩
  · intro store₀ h₀
    simp only [TokenBucketStore.getBucketState, h₀]
  · intro hge
    rw [tokenBucket_allow_eq s store identifier now st hst, if_neg (not_lt.mpr hge)]
  · intro hlt
    rw [tokenBucket_allow_eq s store identifier now st hst, if_pos hlt]

/-- Witness for C3: rate 1, burst 5, stored state
`{tokens := 0, lastRefill := 0}`, request at `now = 2`: two tokens have
refilled, the request is permitted and `{tokens := 1, lastRefill := 2}`
is persisted. -/
theorem tokenBucket_allow_spec_witness :
    ((fun k => if k = tokenBucketKey "x"
        then some (StateBlob.good ({ tokens := 0, lastRefill := 0 } : TokenBucketState))
        else none) (tokenBucketKey "x")
      = some (.good ({ tokens := 0, lastRefill := 0 } : TokenBucketState))) ∧
    (1 : ℚ) ≤ min ((0 : ℚ) + ((2 : ℚ) - 0) * 1) ((5 : Int) : ℚ) ∧
    TokenBucketStore.Allow { rate := 1, burst := 5, expiresIn := 10 ^ 9 }
      (fun k => if k = tokenBucketKey "x"
        then some (StateBlob.good ({ tokens := 0, lastRefill := 0 } : TokenBucketState))
        else none) "x" 2
      = .ok (true, saveBucketState
          (fun k => if k = tokenBucketKey "x"
            then some (StateBlob.good ({ tokens := 0, lastRefill := 0 } : TokenBucketState))
            else none) (tokenBucketKey "x")
          { tokens := min ((0 : ℚ) + ((2 : ℚ) - 0) * 1) ((5 : Int) : ℚ) - 1,
            lastRefill := 2 }) :=
  ⟨by simp, by with_unfolding_all decide,
    (tokenBucket_allow_spec { rate := 1, burst := 5, expiresIn := 10 ^ 9 }
      (fun k => if k = tokenBucketKey "x"
        then some (StateBlob.good ({ tokens := 0, lastRefill := 0 } : TokenBucketState))
        else none) "x" 2 { tokens := 0, lastRefill := 0 } (by simp)).2.1
      (by with_unfolding_all decide)⟩

/-- C9: a stored bucket-state blob that fails to deserialize makes both
Token Bucket and Leaky Bucket `Allow` return an error — neither a silent
reset to fresh state nor a permit/deny decision. -/
theorem malformedState_errors (ts : TokenBucketStore) (ls : LeakyBucketStore)
    (tstore : BucketStore TokenBucketState) (lstore : BucketStore LeakyBucketState)
    (identifier : String) (now : ℚ)
    (ht : tstore (tokenBucketKey identifier) = some .bad)
    (hl : lstore (leakyBucketKey identifier) = some .bad) :
    ts.Allow tstore identifier now
      = .error "failed to get bucket state: failed to unmarshal token bucket state" ∧
    ls.Allow lstore identifier now = .error "failed to unmarshal leaky bucket state" := by
  constructor
  · simp only [TokenBucketStore.Allow, TokenBucketStore.getBucketState, ht]
    rfl
  · simp only [LeakyBucketStore.Allow, LeakyBucketStore.getBucketState, hl]

/-- Witness for C9: concrete stores holding a malformed blob under each
strategy's key. -/
theorem malformedState_errors_witness :
    ((fun k => if k = tokenBucketKey "x" then some (StateBlob.bad (σ := TokenBucketState))
        else none) (tokenBucketKey "x") = some .bad) ∧
    ((fun k => if k = leakyBucketKey "x" then some (StateBlob.bad (σ := LeakyBucketState))
        else none) (leakyBucketKey "x") = some .bad) ∧
    TokenBucketStore.Allow { rate := 1, burst := 5, expiresIn := 10 ^ 9 }
      (fun k => if k = tokenBucketKey "x" then some StateBlob.bad else none) "x" 0
      = .error "failed to get bucket state: failed to unmarshal token bucket state" ∧
    LeakyBucketStore.Allow { capacity := 5, leakRate := 1, expiresIn := 10 ^ 9 }
      (fun k => if k = leakyBucketKey "x" then some StateBlob.bad else none) "x" 0
      = .error "failed to unmarshal leaky bucket state" := by
  refine ⟨by simp, by simp, ?_⟩
  exact malformedState_errors { rate := 1, burst := 5, expiresIn := 10 ^ 9 }
    { capacity := 5, leakRate := 1, expiresIn := 10 ^ 9 }
    (fun k => if k = tokenBucketKey "x" then some StateBlob.bad else none)
    (fun k => if k = leakyBucketKey "x" then some StateBlob.bad else none)
    "x" 0 (by simp) (by simp)

/-- C7: for both bucket strategies, if the stored level lies in
`[0, capacity]` before an `Allow` call, the elapsed time is nonnegative,
and (for the leaky bucket) the configured leak rate is nonnegative, then
every state persisted by the call keeps its level within `[0, capacity]`:
the token bucket's persisted `tokens` lie in `[0, burst]` and the leaky
bucket's persisted `water` lies in `[0, capacity]`. -/
theorem bucket_level_invariant (ts : TokenBucketStore) (ls : LeakyBucketStore)
    (tstore : BucketStore TokenBucketState) (lstore : BucketStore LeakyBucketState)
    (identifier : String) (now : ℚ)
    (tst : TokenBucketState) (lst : LeakyBucketState)
    (htst : tstore (tokenBucketKey identifier) = some (.good tst))
    (hlst : lstore (leakyBucketKey identifier) = some (.good lst))
    (htok₀ : 0 ≤ tst.tokens) (htok₁ : tst.tokens ≤ (ts.burst : ℚ))
    (hwat₀ : 0 ≤ lst.water) (hwat₁ : lst.water ≤ ls.capacity)
    (_htel : 0 ≤ now - tst.lastRefill) (hlel : 0 ≤ now - lst.lastLeak)
    (hrate : 0 ≤ ls.leakRate) :
    (∀ b store', ts.Allow tstore identifier now = .ok (b, store') →
      ∀ st', store' (tokenBucketKey identifier) = some (.good st') →
        0 ≤ st'.tokens ∧ st'.tokens ≤ (ts.burst : ℚ)) ∧
    (∀ b store', ls.Allow lstore identifier now = .ok (b, store') →
      ∀ st', store' (leakyBucketKey identifier) = some (.good st') →
        0 ≤ st'.water ∧ st'.water ≤ ls.capacity) := by
  constructor
  · intro b store' hrun st' hst'
    rw [tokenBucket_allow_eq ts tstore identifier now tst htst] at hrun
    split at hrun
    · obtain ⟨rfl, rfl⟩ : b = false ∧ store' = tstore := by
        simpa [eq_comm] using hrun
      rw [htst] at hst'
      obtain rfl : tst = st' := by simpa using hst'
      exact ⟨htok₀, htok₁⟩
    · rename_i hge
      obtain ⟨rfl, rfl⟩ : b = true ∧ store' = saveBucketState tstore (tokenBucketKey identifier)
          { tokens := min (tst.tokens + (now - tst.lastRefill) * ts.rate) ((ts.burst : ℚ)) - 1,
            lastRefill := now } := by
        simpa [eq_comm] using hrun
      rw [saveBucketState, if_pos rfl] at hst'
      obtain rfl : TokenBucketState.mk
          (min (tst.tokens + (now - tst.lastRefill) * ts.rate) ((ts.burst : ℚ)) - 1) now
          = st' := by
        simpa using hst'
      push_neg at hge
      constructor
      · show (0 : ℚ) ≤ min (tst.tokens + (now - tst.lastRefill) * ts.rate) ((ts.burst : ℚ)) - 1
        linarith
      · show min (tst.tokens + (now - tst.lastRefill) * ts.rate) ((ts.burst : ℚ)) - 1
            ≤ (ts.burst : ℚ)
        have hmin : min (tst.tokens + (now - tst.lastRefill) * ts.rate) ((ts.burst : ℚ))
            ≤ (ts.burst : ℚ) := min_le_right _ _
        linarith
  · intro b store' hrun st' hst'
    rw [leakyBucket_allow_eq ls lstore identifier now lst hlst] at hrun
    have hleak : 0 ≤ goTrunc ((now - lst.lastLeak) * ls.leakRate) := by
      rw [goTrunc_eq_floor _ (mul_nonneg hlel hrate)]
      exact Int.floor_nonneg.mpr (mul_nonneg hlel hrate)
    split at hrun
    · rename_i hge
      obtain ⟨rfl, rfl⟩ : b = false ∧ store' = saveBucketState lstore (leakyBucketKey identifier)
          { water := max 0 (lst.water - goTrunc ((now - lst.lastLeak) * ls.leakRate)),
            lastLeak := lst.lastLeak } := by
        simpa [eq_comm] using hrun
      rw [saveBucketState, if_pos rfl] at hst'
      obtain rfl : LeakyBucketState.mk
          (max 0 (lst.water - goTrunc ((now - lst.lastLeak) * ls.leakRate))) lst.lastLeak
          = st' := by
        simpa using hst'
      refine ⟨le_max_left _ _, ?_⟩
      show max 0 (lst.water - goTrunc ((now - lst.lastLeak) * ls.leakRate)) ≤ ls.capacity
      rw [max_le_iff]
      exact ⟨by linarith, by linarith⟩
    · rename_i hlt
      obtain ⟨rfl, rfl⟩ : b = true ∧ store' = saveBucketState lstore (leakyBucketKey identifier)
          { water := max 0 (lst.water - goTrunc ((now - lst.lastLeak) * ls.leakRate)) + 1,
            lastLeak := now } := by
        simpa [eq_comm] using hrun
      rw [saveBucketState, if_pos rfl] at hst'
      obtain rfl : LeakyBucketState.mk
          (max 0 (lst.water - goTrunc ((now - lst.lastLeak) * ls.leakRate)) + 1) now
          = st' := by
        simpa using hst'
      push_neg at hlt
      constructor
      · show (0 : Int) ≤ max 0 (lst.water - goTrunc ((now - lst.lastLeak) * ls.leakRate)) + 1
        have := le_max_left (0 : Int) (lst.water - goTrunc ((now - lst.lastLeak) * ls.leakRate))
        linarith
      · show max 0 (lst.water - goTrunc ((now - lst.lastLeak) * ls.leakRate)) + 1 ≤ ls.capacity
        linarith

/-- Witness for C7: token bucket `{rate := 0, burst := 5}` with stored
`{tokens := 0, lastRefill := 0}` (deny, nothing persisted: stored level
keeps its bounds) and leaky bucket `{capacity := 5, leakRate := 0}` with
stored `{water := 5, lastLeak := 0}` (deny, decayed state persisted with
level 5 ∈ [0, 5]), both at `now = 1`. -/
theorem bucket_level_invariant_witness :
    ((fun k => if k = tokenBucketKey "x"
        then some (StateBlob.good ({ tokens := 0, lastRefill := 0 } : TokenBucketState))
        else none) (tokenBucketKey "x")
      = some (.good ({ tokens := 0, lastRefill := 0 } : TokenBucketState))) ∧
    ((fun k => if k = leakyBucketKey "x"
        then some (StateBlob.good ({ water := 5, lastLeak := 0 } : LeakyBucketState))
        else none) (leakyBucketKey "x")
      = some (.good ({ water := 5, lastLeak := 0 } : LeakyBucketState))) ∧
    ((0 : ℚ) ≤ 0 ∧ (0 : ℚ) ≤ ((5 : Int) : ℚ) ∧ (0 : Int) ≤ 5 ∧ (5 : Int) ≤ 5 ∧
      (0 : ℚ) ≤ 1 - 0 ∧ (0 : ℚ) ≤ 0) ∧
    (0 ≤ ({ tokens := 0, lastRefill := 0 } : TokenBucketState).tokens ∧
      ({ tokens := 0, lastRefill := 0 } : TokenBucketState).tokens ≤ ((5 : Int) : ℚ)) ∧
    (0 ≤ (LeakyBucketState.mk (max 0 (5 - goTrunc (((1 : ℚ) - 0) * 0))) 0).water ∧
      (LeakyBucketState.mk (max 0 (5 - goTrunc (((1 : ℚ) - 0) * 0))) 0).water ≤ 5) := by
  have main := bucket_level_invariant
    { rate := 0, burst := 5, expiresIn := 10 ^ 9 }
    { capacity := 5, leakRate := 0, expiresIn := 10 ^ 9 }
    (fun k => if k = tokenBucketKey "x"
      then some (StateBlob.good ({ tokens := 0, lastRefill := 0 } : TokenBucketState))
      else none)
    (fun k => if k = leakyBucketKey "x"
      then some (StateBlob.good ({ water := 5, lastLeak := 0 } : LeakyBucketState))
      else none)
    "x" 1 { tokens := 0, lastRefill := 0 } { water := 5, lastLeak := 0 }
    (by simp) (by simp) (by norm_num) (by norm_num) (by norm_num) (by norm_num)
    (by norm_num) (by norm_num) (by norm_num)
  refine ⟨by simp, by simp, ⟨by norm_num, by norm_num, by norm_num, by norm_num,
    by norm_num, by norm_num⟩, ?_, ?_⟩
  · exact main.1 false _ (by with_unfolding_all rfl) _ (by simp)
  · exact main.2 false
      (saveBucketState
        (fun k => if k = leakyBucketKey "x"
          then some (StateBlob.good ({ water := 5, lastLeak := 0 } : LeakyBucketState))
          else none)
        (leakyBucketKey "x")
        (LeakyBucketState.mk (max 0 (5 - goTrunc (((1 : ℚ) - 0) * 0))) 0))
      (by with_unfolding_all rfl) _ (by simp [saveBucketState])

/-- For a window of at least one second the truncated divisor is positive. -/
theorem durSecondsInt64_pos {d : Int} (hd : 10 ^ 9 ≤ d) : 0 < durSecondsInt64 d := by
  rw [durSecondsInt64_eq_floor d (by positivity)]
  have : (1 : ℤ) ≤ ⌊(d : ℚ) / 1000000000⌋ := by
    rw [Int.le_floor, le_div_iff₀ (by norm_num)]
    push_cast
    exact_mod_cast by push_cast; linarith [hd]
  omega

/-- For a window of at least one second the exact seconds value is positive. -/
theorem durSecondsQ_pos {d : Int} (hd : 10 ^ 9 ≤ d) : 0 < durSecondsQ d := by
  rw [durSecondsQ]
  have : (10 : ℚ) ^ 9 ≤ (d : ℚ) := by exact_mod_cast hd
  positivity

/-- The truncated divisor never exceeds the exact seconds value. -/
theorem durSecondsInt64_le_durSecondsQ {d : Int} (hd : 0 ≤ d) :
    ((durSecondsInt64 d : ℚ)) ≤ durSecondsQ d := by
  rw [durSecondsInt64_eq_floor d hd, durSecondsQ]
  exact Int.floor_le _

/-- The sliding window's `offset` is nonnegative for nonnegative times. -/
theorem slidingOffset_nonneg (s : SlidingWindowStore) (now : Int)
    (hnow : 0 ≤ now) (hw : 10 ^ 9 ≤ s.windowSize) : 0 ≤ s.offset now := by
  rw [SlidingWindowStore.offset]
  have hm : 0 ≤ now.tmod (durSecondsInt64 s.windowSize) := Int.tmod_nonneg _ hnow
  have hq := durSecondsQ_pos hw
  positivity

/-- The sliding window's `offset` is below 1 for nonnegative times and
windows of at least one second. -/
theorem slidingOffset_lt_one (s : SlidingWindowStore) (now : Int)
    (_hnow : 0 ≤ now) (hw : 10 ^ 9 ≤ s.windowSize) : s.offset now < 1 := by
  rw [SlidingWindowStore.offset, div_lt_one (durSecondsQ_pos hw)]
  have hmod : now.tmod (durSecondsInt64 s.windowSize) < durSecondsInt64 s.windowSize :=
    Int.tmod_lt_of_pos _ (durSecondsInt64_pos hw)
  have hle := durSecondsInt64_le_durSecondsQ (d := s.windowSize) (by positivity)
  have : ((now.tmod (durSecondsInt64 s.windowSize) : ℚ))
      < ((durSecondsInt64 s.windowSize : ℚ)) := by exact_mod_cast hmod
  linarith

/-- C4: Sliding Window `Allow` permits iff
`⌊previousCount * (1 - offset)⌋ + currentCount < limit` — a strict
less-than, unlike Fixed Window's `<=`. In particular with limit 10, a
previous-window count of 10, a current-window count of 0 and offset 0
(request at the exact window boundary), the weighted count is 10 and the
request is denied. -/
theorem slidingWindow_strict_lt (s : SlidingWindowStore) (store : CounterStore)
    (identifier : String) (now : Int) (hnow : 0 ≤ now) (hw : 10 ^ 9 ≤ s.windowSize) :
    ((s.Allow store identifier now).1 = true ↔
      ⌊(checkCount store (slidingWindowKey identifier (s.windowNum now - 1)) : ℚ)
          * (1 - s.offset now)⌋
        + (checkCount store (slidingWindowKey identifier (s.windowNum now)) : Int)
        < s.limit) ∧
    (SlidingWindowStore.weightedCount { limit := 10, windowSize := 60 * 10 ^ 9 }
        { count := fun k => if k = slidingWindowKey "x" 0 then 10 else 0, ttl := fun _ => none }
        "x" 60 = 10 ∧
      (SlidingWindowStore.Allow { limit := 10, windowSize := 60 * 10 ^ 9 }
        { count := fun k => if k = slidingWindowKey "x" 0 then 10 else 0, ttl := fun _ => none }
        "x" 60).1 = false) := by
  constructor
  · have hoff₀ := slidingOffset_nonneg s now hnow hw
    have hoff₁ := slidingOffset_lt_one s now hnow hw
    have htr : goTrunc ((checkCount store (slidingWindowKey identifier (s.windowNum now - 1)) : ℚ)
        * (1 - s.offset now))
        = ⌊(checkCount store (slidingWindowKey identifier (s.windowNum now - 1)) : ℚ)
            * (1 - s.offset now)⌋ := by
      apply goTrunc_eq_floor
      have h₁ : (0 : ℚ) ≤ (checkCount store (slidingWindowKey identifier (s.windowNum now - 1)) : ℚ) := by
        positivity
      nlinarith
    simp only [SlidingWindowStore.Allow, SlidingWindowStore.weightedCount, htr]
    split
    · rename_i hge
      simpa [not_lt] using hge
    · rename_i hlt
      simpa using not_le.mp hlt
  · constructor
    · with_unfolding_all decide
    · with_unfolding_all decide

/-- Witness for C4 at limit 10, window 60 s, previous-window count 10,
current-window count 0, request at `now = 60` (window boundary). -/
theorem slidingWindow_strict_lt_witness :
    (0 : Int) ≤ 60 ∧ (10 : Int) ^ 9 ≤ 60 * 10 ^ 9 ∧
    ((SlidingWindowStore.Allow { limit := 10, windowSize := 60 * 10 ^ 9 }
        { count := fun k => if k = slidingWindowKey "x" 0 then 10 else 0, ttl := fun _ => none }
        "x" 60).1 = true ↔
      ⌊(checkCount
            { count := fun k => if k = slidingWindowKey "x" 0 then 10 else 0, ttl := fun _ => none }
            (slidingWindowKey "x"
              (SlidingWindowStore.windowNum { limit := 10, windowSize := 60 * 10 ^ 9 } 60 - 1)) : ℚ)
          * (1 - SlidingWindowStore.offset { limit := 10, windowSize := 60 * 10 ^ 9 } 60)⌋
        + (checkCount
            { count := fun k => if k = slidingWindowKey "x" 0 then 10 else 0, ttl := fun _ => none }
            (slidingWindowKey "x"
              (SlidingWindowStore.windowNum { limit := 10, windowSize := 60 * 10 ^ 9 } 60)) : Int)
        < (10 : Int)) :=
  ⟨by decide, by decide,
    (slidingWindow_strict_lt { limit := 10, windowSize := 60 * 10 ^ 9 }
      { count := fun k => if k = slidingWindowKey "x" 0 then 10 else 0, ttl := fun _ => none }
      "x" 60 (by decide) (by decide)).1⟩

/-- `IncrementPreserveTTL` leaves every other key's count unchanged. -/
theorem incrementPreserveTTL_count_other (store : CounterStore) (key k : String) (d : Int)
    (h : k ≠ key) : ((incrementPreserveTTL store key d).2).count k = store.count k := by
  rw [incrementPreserveTTL]
  split <;> simp [h]

/-- `IncrementPreserveTTL` adds exactly one to the target key's count. -/
theorem incrementPreserveTTL_count_self (store : CounterStore) (key : String) (d : Int) :
    ((incrementPreserveTTL store key d).2).count key = store.count key + 1 := by
  rw [incrementPreserveTTL]
  split <;> simp

/-- `IncrementPreserveTTL` returns the incremented count. -/
theorem incrementPreserveTTL_fst (store : CounterStore) (key : String) (d : Int) :
    (incrementPreserveTTL store key d).1 = store.count key + 1 := by
  rw [incrementPreserveTTL]
  split <;> simp

/-- Keys of adjacent windows are distinct. -/
theorem slidingWindowKey_ne_pred (identifier : String) (w : Int) :
    slidingWindowKey identifier (w - 1) ≠ slidingWindowKey identifier w := by
  intro h
  simp only [slidingWindowKey] at h
  have := (windowKey_inj h).2
  omega

/-- C6: a permitted Sliding Window `Allow` call performs exactly one
store write — an increment of the current-window counter with default
TTL `2 * windowSize`; a denied call performs no write at all (the store
is returned unchanged); and the previous-window counter is never
modified by `Allow`. -/
theorem slidingWindow_single_write (s : SlidingWindowStore) (store : CounterStore)
    (identifier : String) (now : Int) :
    ((s.Allow store identifier now).1 = true →
      (s.Allow store identifier now).2.2
        = [{ key := slidingWindowKey identifier (s.windowNum now),
             defaultExpiration := s.windowSize * 2 }]) ∧
    ((s.Allow store identifier now).1 = false →
      (s.Allow store identifier now).2.2 = [] ∧ (s.Allow store identifier now).2.1 = store) ∧
    (s.Allow store identifier now).2.1.count (slidingWindowKey identifier (s.windowNum now - 1))
      = store.count (slidingWindowKey identifier (s.windowNum now - 1)) := by
  rw [SlidingWindowStore.Allow]
  split
  · exact ⟨fun h => absurd h (by simp), fun _ => ⟨rfl, rfl⟩, rfl⟩
  · refine ⟨fun _ => rfl, fun h => absurd h (by simp), ?_⟩
    exact incrementPreserveTTL_count_other store _ _ _
      (slidingWindowKey_ne_pred identifier (s.windowNum now))

/-- Witness for C6: a permitted call (limit 1, empty store) writes the
single increment with TTL `2 * windowSize`, and a denied call (limit 0)
writes nothing; both at `now = 0`, window 1 s, and both leave the
previous-window counter untouched. -/
theorem slidingWindow_single_write_witness :
    ((SlidingWindowStore.Allow { limit := 1, windowSize := 10 ^ 9 }
        { count := fun _ => 0, ttl := fun _ => none } "x" 0).1 = true ∧
      (SlidingWindowStore.Allow { limit := 1, windowSize := 10 ^ 9 }
        { count := fun _ => 0, ttl := fun _ => none } "x" 0).2.2
        = [{ key := slidingWindowKey "x"
               (SlidingWindowStore.windowNum { limit := 1, windowSize := 10 ^ 9 } 0),
             defaultExpiration := 10 ^ 9 * 2 }]) ∧
    ((SlidingWindowStore.Allow { limit := 0, windowSize := 10 ^ 9 }
        { count := fun _ => 0, ttl := fun _ => none } "x" 0).1 = false ∧
      (SlidingWindowStore.Allow { limit := 0, windowSize := 10 ^ 9 }
        { count := fun _ => 0, ttl := fun _ => none } "x" 0).2.2 = [] ∧
      (SlidingWindowStore.Allow { limit := 0, windowSize := 10 ^ 9 }
        { count := fun _ => 0, ttl := fun _ => none } "x" 0).2.1
        = { count := fun _ => 0, ttl := fun _ => none }) :=
  ⟨⟨by with_unfolding_all decide,
    (slidingWindow_single_write { limit := 1, windowSize := 10 ^ 9 }
      { count := fun _ => 0, ttl := fun _ => none } "x" 0).1 (by with_unfolding_all decide)⟩,
   ⟨by with_unfolding_all decide,
    (slidingWindow_single_write { limit := 0, windowSize := 10 ^ 9 }
      { count := fun _ => 0, ttl := fun _ => none } "x" 0).2.1 (by with_unfolding_all decide)⟩⟩

/-- The decision of a fixed-window `Allow` call as a function of the
stored count at the current window's key. -/
theorem fixedWindow_allow_decision (s : FixedWindowStore) (store : CounterStore)
    (identifier : String) (t : Int) :
    (s.Allow store identifier t).1
      = decide (((store.count (fixedWindowKey identifier (s.windowNum t)) + 1 : Nat) : Int)
          ≤ s.limit) := by
  rw [FixedWindowStore.Allow]
  simp only [incrementPreserveTTL_fst]

/-- The store after a fixed-window `Allow` call: the current window's
counter grew by one. -/
theorem fixedWindow_allow_store (s : FixedWindowStore) (store : CounterStore)
    (identifier : String) (t : Int) :
    (s.Allow store identifier t).2.count (fixedWindowKey identifier (s.windowNum t))
      = store.count (fixedWindowKey identifier (s.windowNum t)) + 1 := by
  rw [FixedWindowStore.Allow]
  simp only [incrementPreserveTTL_count_self]

/-- Core induction for C1: running `Allow` over timestamps that all fall
in window `w`, the i-th decision compares `initial count + i + 1`
against the limit and the final count grew by the number of calls. -/
theorem fixedWindowRun_spec (s : FixedWindowStore) (identifier : String) (w : Int) :
    ∀ (times : List Int) (store : CounterStore), (∀ t ∈ times, s.windowNum t = w) →
      (fixedWindowRun s identifier times store).1
        = (List.range times.length).map
            (fun i => decide
              (((store.count (fixedWindowKey identifier w) + i + 1 : Nat) : Int) ≤ s.limit)) ∧
      (fixedWindowRun s identifier times store).2.count (fixedWindowKey identifier w)
        = store.count (fixedWindowKey identifier w) + times.length := by
  intro times
  induction times with
  | nil => intro store _; simp [fixedWindowRun]
  | cons t ts ih =>
    intro store h
    have hw : s.windowNum t = w := h t (List.mem_cons_self t ts)
    have hts : ∀ t' ∈ ts, s.windowNum t' = w := fun t' ht' => h t' (List.mem_cons_of_mem t ht')
    have hdec := fixedWindow_allow_decision s store identifier t
    have hsto := fixedWindow_allow_store s store identifier t
    rw [hw] at hdec hsto
    obtain ⟨ih₁, ih₂⟩ := ih ((s.Allow store identifier t).2) hts
    rw [hsto] at ih₁ ih₂
    constructor
    · show (s.Allow store identifier t).1 :: (fixedWindowRun s identifier ts _).1 = _
      rw [hdec, ih₁, List.length_cons, List.range_succ_eq_map, List.map_cons, List.map_map]
      refine congrArg₂ _ (by norm_num) ?_
      apply List.map_congr_left
      intro i _
      simp only [Function.comp_apply]
      have harg : store.count (fixedWindowKey identifier w) + 1 + i + 1
          = store.count (fixedWindowKey identifier w) + (i + 1) + 1 := by omega
      rw [harg]
    · show (fixedWindowRun s identifier ts _).2.count _ = _
      rw [ih₂, List.length_cons]
      omega

/-- C1: with limit `L`, window of at least one second, an error-free
store, and `L+1` `Allow` calls for one identifier all falling in a
single window whose counter starts at 0, the i-th call (0-based) is
permitted iff `i + 1 <= L` — i.e. exactly the first `L` calls are
permitted and the last denied — and every call, including the denied
one, increments the counter, leaving it at `L + 1`. -/
theorem fixedWindow_exact_limit (s : FixedWindowStore) (L : Int) (hsL : s.limit = L)
    (_hL : 0 ≤ L) (_hw : 10 ^ 9 ≤ s.windowSize) (identifier : String) (w : Int)
    (times : List Int) (hlen : (times.length : Int) = L + 1)
    (hwin : ∀ t ∈ times, s.windowNum t = w)
    (store : CounterStore) (hfresh : store.count (fixedWindowKey identifier w) = 0) :
    (∀ i, i < times.length →
      (fixedWindowRun s identifier times store).1.getD i false = decide ((i : Int) + 1 ≤ L)) ∧
    ((fixedWindowRun s identifier times store).2.count (fixedWindowKey identifier w) : Int)
      = L + 1 := by
  obtain ⟨h1, h2⟩ := fixedWindowRun_spec s identifier w times store hwin
  rw [hfresh] at h1 h2
  constructor
  · intro i hi
    rw [h1, List.getD_eq_getElem?_getD, List.getElem?_map, List.getElem?_range hi]
    simp only [Option.map_some', Option.getD_some]
    rw [hsL]
    exact decide_eq_decide.mpr (by push_cast; omega)
  · rw [h2]
    push_cast
    omega

/-- Witness for C1 with `L = 2`, window 1 s, three calls at `now = 0`:
permitted, permitted, denied; final counter 3. -/
theorem fixedWindow_exact_limit_witness :
    (([0, 0, 0] : List Int).length : Int) = 2 + 1 ∧
    ({ count := fun _ => 0, ttl := fun _ => none } : CounterStore).count (fixedWindowKey "x" 0)
      = 0 ∧
    (fixedWindowRun { limit := 2, windowSize := 10 ^ 9 } "x" [0, 0, 0]
        { count := fun _ => 0, ttl := fun _ => none }).1.getD 0 false
      = decide ((0 : Int) + 1 ≤ 2) ∧
    (fixedWindowRun { limit := 2, windowSize := 10 ^ 9 } "x" [0, 0, 0]
        { count := fun _ => 0, ttl := fun _ => none }).1.getD 1 false
      = decide ((1 : Int) + 1 ≤ 2) ∧
    (fixedWindowRun { limit := 2, windowSize := 10 ^ 9 } "x" [0, 0, 0]
        { count := fun _ => 0, ttl := fun _ => none }).1.getD 2 false
      = decide ((2 : Int) + 1 ≤ 2) ∧
    ((fixedWindowRun { limit := 2, windowSize := 10 ^ 9 } "x" [0, 0, 0]
        { count := fun _ => 0, ttl := fun _ => none }).2.count (fixedWindowKey "x" 0) : Int)
      = 2 + 1 := by
  have main := fixedWindow_exact_limit { limit := 2, windowSize := 10 ^ 9 } 2 rfl
    (by decide) (by decide) "x" 0 [0, 0, 0] (by decide)
    (by intro t ht; fin_cases ht <;> with_unfolding_all decide)
    { count := fun _ => 0, ttl := fun _ => none } rfl
  exact ⟨by decide, rfl, main.1 0 (by decide), main.1 1 (by decide), main.1 2 (by decide),
    main.2⟩

/-! ## Key disjointness and frame lemmas (partition isolation) -/

/-- A common string prefix cancels on the left. -/
theorem string_append_left_cancel {p id₁ id₂ : String} (h : p ++ id₁ = p ++ id₂) :
    id₁ = id₂ := by
  have hd := congrArg String.data h
  simp only [String.data_append] at hd
  exact String.ext (List.append_cancel_left hd)

/-- Distinct identifiers yield distinct fixed-window keys, at any pair
of window indices. -/
theorem fixedWindowKey_ne {id₁ id₂ : String} (h : id₁ ≠ id₂) (w₁ w₂ : Int) :
    fixedWindowKey id₁ w₁ ≠ fixedWindowKey id₂ w₂ := by
  intro he
  simp only [fixedWindowKey] at he
  exact h (windowKey_inj he).1

/-- Distinct identifiers yield distinct sliding-window keys, at any pair
of window indices. -/
theorem slidingWindowKey_ne {id₁ id₂ : String} (h : id₁ ≠ id₂) (w₁ w₂ : Int) :
    slidingWindowKey id₁ w₁ ≠ slidingWindowKey id₂ w₂ := by
  intro he
  simp only [slidingWindowKey] at he
  exact h (windowKey_inj he).1

/-- Distinct identifiers yield distinct token-bucket keys. -/
theorem tokenBucketKey_ne {id₁ id₂ : String} (h : id₁ ≠ id₂) :
    tokenBucketKey id₁ ≠ tokenBucketKey id₂ :=
  fun he => h (string_append_left_cancel (p := "rate_limit_token_bucket:") he)

/-- Distinct identifiers yield distinct leaky-bucket keys. -/
theorem leakyBucketKey_ne {id₁ id₂ : String} (h : id₁ ≠ id₂) :
    leakyBucketKey id₁ ≠ leakyBucketKey id₂ :=
  fun he => h (string_append_left_cancel (p := "rate_limit_leaky_bucket:") he)

/-- `saveBucketState` leaves every other key untouched. -/
theorem saveBucketState_other {σ : Type} (store : BucketStore σ) (key k : String) (st : σ)
    (hk : k ≠ key) : saveBucketState store key st k = store k := by
  simp [saveBucketState, hk]

/-- A fixed-window `Allow` call writes no key but its own window key. -/
theorem fixedWindow_allow_frame (s : FixedWindowStore) (store : CounterStore)
    (identifier : String) (t : Int) (k : String)
    (hk : k ≠ fixedWindowKey identifier (s.windowNum t)) :
    (s.Allow store identifier t).2.count k = store.count k := by
  rw [FixedWindowStore.Allow]
  exact incrementPreserveTTL_count_other store _ k _ hk

/-- A sliding-window `Allow` call writes no key but its current-window key. -/
theorem slidingWindow_allow_frame (s : SlidingWindowStore) (store : CounterStore)
    (identifier : String) (t : Int) (k : String)
    (hk : k ≠ slidingWindowKey identifier (s.windowNum t)) :
    (s.Allow store identifier t).2.1.count k = store.count k := by
  rw [SlidingWindowStore.Allow]
  split
  · rfl
  · exact incrementPreserveTTL_count_other store _ k _ hk

/-- The fixed-window decision depends only on the count at its own key. -/
theorem fixedWindow_decision_congr (s : FixedWindowStore) {store₁ store₂ : CounterStore}
    (identifier : String) (t : Int)
    (h : store₁.count (fixedWindowKey identifier (s.windowNum t))
        = store₂.count (fixedWindowKey identifier (s.windowNum t))) :
    (s.Allow store₁ identifier t).1 = (s.Allow store₂ identifier t).1 := by
  rw [fixedWindow_allow_decision, fixedWindow_allow_decision, h]

/-- The fixed-window `Info` result depends only on the count at its own key. -/
theorem fixedWindow_info_congr (s : FixedWindowStore) {store₁ store₂ : CounterStore}
    (identifier : String) (t : Int)
    (h : store₁.count (fixedWindowKey identifier (s.windowNum t))
        = store₂.count (fixedWindowKey identifier (s.windowNum t))) :
    s.GetRateLimitInfo store₁ identifier t = s.GetRateLimitInfo store₂ identifier t := by
  simp only [FixedWindowStore.GetRateLimitInfo, checkCount, h]

/-- The sliding-window weighted count depends only on the two own-window keys. -/
theorem slidingWindow_weighted_congr (s : SlidingWindowStore) {store₁ store₂ : CounterStore}
    (identifier : String) (t : Int)
    (hc : store₁.count (slidingWindowKey identifier (s.windowNum t))
        = store₂.count (slidingWindowKey identifier (s.windowNum t)))
    (hp : store₁.count (slidingWindowKey identifier (s.windowNum t - 1))
        = store₂.count (slidingWindowKey identifier (s.windowNum t - 1))) :
    s.weightedCount store₁ identifier t = s.weightedCount store₂ identifier t := by
  simp only [SlidingWindowStore.weightedCount, checkCount, hc, hp]

/-- The sliding-window decision depends only on the two own-window keys. -/
theorem slidingWindow_decision_congr (s : SlidingWindowStore) {store₁ store₂ : CounterStore}
    (identifier : String) (t : Int)
    (hc : store₁.count (slidingWindowKey identifier (s.windowNum t))
        = store₂.count (slidingWindowKey identifier (s.windowNum t)))
    (hp : store₁.count (slidingWindowKey identifier (s.windowNum t - 1))
        = store₂.count (slidingWindowKey identifier (s.windowNum t - 1))) :
    (s.Allow store₁ identifier t).1 = (s.Allow store₂ identifier t).1 := by
  have hw := slidingWindow_weighted_congr s identifier t hc hp
  simp only [SlidingWindowStore.Allow, hw]
  split <;> rfl

/-- The sliding-window `Info` result depends only on the two own-window keys. -/
theorem slidingWindow_info_congr (s : SlidingWindowStore) {store₁ store₂ : CounterStore}
    (identifier : String) (t : Int)
    (hc : store₁.count (slidingWindowKey identifier (s.windowNum t))
        = store₂.count (slidingWindowKey identifier (s.windowNum t)))
    (hp : store₁.count (slidingWindowKey identifier (s.windowNum t - 1))
        = store₂.count (slidingWindowKey identifier (s.windowNum t - 1))) :
    s.GetRateLimitInfo store₁ identifier t = s.GetRateLimitInfo store₂ identifier t := by
  have hw := slidingWindow_weighted_congr s identifier t hc hp
  simp only [SlidingWindowStore.GetRateLimitInfo, hw]

/-- Unfolding of `TokenBucketStore.Allow` on an absent state (fresh full
bucket, elapsed 0). -/
theorem tokenBucket_allow_eq_none (s : TokenBucketStore) (store : BucketStore TokenBucketState)
    (identifier : String) (now : ℚ)
    (hst : store (tokenBucketKey identifier) = none) :
    s.Allow store identifier now =
      (if min ((s.burst : ℚ) + (now - now) * s.rate) ((s.burst : ℚ)) < 1
       then .ok (false, store)
       else .ok (true, saveBucketState store (tokenBucketKey identifier)
          { tokens := min ((s.burst : ℚ) + (now - now) * s.rate) ((s.burst : ℚ)) - 1,
            lastRefill := now })) := by
  simp only [TokenBucketStore.Allow, TokenBucketStore.getBucketState, hst]

/-- Unfolding of `LeakyBucketStore.Allow` on an absent state (fresh
empty bucket, elapsed 0). -/
theorem leakyBucket_allow_eq_none (s : LeakyBucketStore) (store : BucketStore LeakyBucketState)
    (identifier : String) (now : ℚ)
    (hst : store (leakyBucketKey identifier) = none) :
    s.Allow store identifier now =
      (if max 0 (0 - goTrunc ((now - now) * s.leakRate)) ≥ s.capacity
       then .ok (false, saveBucketState store (leakyBucketKey identifier)
          { water := max 0 (0 - goTrunc ((now - now) * s.leakRate)), lastLeak := now })
       else .ok (true, saveBucketState store (leakyBucketKey identifier)
          { water := max 0 (0 - goTrunc ((now - now) * s.leakRate)) + 1, lastLeak := now })) := by
  simp only [LeakyBucketStore.Allow, LeakyBucketStore.getBucketState, hst]

/-- A successful token-bucket `Allow` call writes no key but its own. -/
theorem tokenBucket_allow_frame (s : TokenBucketStore) (store : BucketStore TokenBucketState)
    (identifier : String) (now : ℚ) (b : Bool) (store' : BucketStore TokenBucketState)
    (hrun : s.Allow store identifier now = .ok (b, store'))
    (k : String) (hk : k ≠ tokenBucketKey identifier) : store' k = store k := by
  cases hv : store (tokenBucketKey identifier) with
  | none =>
    rw [tokenBucket_allow_eq_none s store identifier now hv] at hrun
    split at hrun
    · obtain ⟨rfl, rfl⟩ : b = false ∧ store' = store := by simpa [eq_comm] using hrun
      rfl
    · obtain ⟨rfl, rfl⟩ : b = true ∧ store' = saveBucketState store (tokenBucketKey identifier)
          { tokens := min ((s.burst : ℚ) + (now - now) * s.rate) ((s.burst : ℚ)) - 1,
            lastRefill := now } := by simpa [eq_comm] using hrun
      exact saveBucketState_other store _ k _ hk
  | some blob =>
    cases blob with
    | bad =>
      rw [TokenBucketStore.Allow] at hrun
      simp only [TokenBucketStore.getBucketState, hv] at hrun
      exact absurd hrun (by simp)
    | good st =>
      rw [tokenBucket_allow_eq s store identifier now st hv] at hrun
      split at hrun
      · obtain ⟨rfl, rfl⟩ : b = false ∧ store' = store := by simpa [eq_comm] using hrun
        rfl
      · obtain ⟨rfl, rfl⟩ : b = true ∧ store' = saveBucketState store (tokenBucketKey identifier)
            { tokens := min (st.tokens + (now - st.lastRefill) * s.rate) ((s.burst : ℚ)) - 1,
              lastRefill := now } := by simpa [eq_comm] using hrun
        exact saveBucketState_other store _ k _ hk

/-- A successful leaky-bucket `Allow` call writes no key but its own. -/
theorem leakyBucket_allow_frame (s : LeakyBucketStore) (store : BucketStore LeakyBucketState)
    (identifier : String) (now : ℚ) (b : Bool) (store' : BucketStore LeakyBucketState)
    (hrun : s.Allow store identifier now = .ok (b, store'))
    (k : String) (hk : k ≠ leakyBucketKey identifier) : store' k = store k := by
  cases hv : store (leakyBucketKey identifier) with
  | none =>
    rw [leakyBucket_allow_eq_none s store identifier now hv] at hrun
    split at hrun
    · obtain ⟨rfl, rfl⟩ : b = false ∧ store' = saveBucketState store (leakyBucketKey identifier)
          { water := max 0 (0 - goTrunc ((now - now) * s.leakRate)), lastLeak := now } := by
        simpa [eq_comm] using hrun
      exact saveBucketState_other store _ k _ hk
    · obtain ⟨rfl, rfl⟩ : b = true ∧ store' = saveBucketState store (leakyBucketKey identifier)
          { water := max 0 (0 - goTrunc ((now - now) * s.leakRate)) + 1, lastLeak := now } := by
        simpa [eq_comm] using hrun
      exact saveBucketState_other store _ k _ hk
  | some blob =>
    cases blob with
    | bad =>
      rw [LeakyBucketStore.Allow] at hrun
      simp only [LeakyBucketStore.getBucketState, hv] at hrun
      exact absurd hrun (by simp)
    | good st =>
      rw [leakyBucket_allow_eq s store identifier now st hv] at hrun
      split at hrun
      · obtain ⟨rfl, rfl⟩ : b = false ∧ store' = saveBucketState store (leakyBucketKey identifier)
            { water := max 0 (st.water - goTrunc ((now - st.lastLeak) * s.leakRate)),
              lastLeak := st.lastLeak } := by
          simpa [eq_comm] using hrun
        exact saveBucketState_other store _ k _ hk
      · obtain ⟨rfl, rfl⟩ : b = true ∧ store' = saveBucketState store (leakyBucketKey identifier)
            { water := max 0 (st.water - goTrunc ((now - st.lastLeak) * s.leakRate)) + 1,
              lastLeak := now } := by
          simpa [eq_comm] using hrun
        exact saveBucketState_other store _ k _ hk

/-- The token-bucket decision (and error status) depends only on the
blob stored under its own key. -/
theorem tokenBucket_decision_congr (s : TokenBucketStore)
    {store₁ store₂ : BucketStore TokenBucketState} (identifier : String) (now : ℚ)
    (h : store₁ (tokenBucketKey identifier) = store₂ (tokenBucketKey identifier)) :
    (s.Allow store₁ identifier now).map (fun r => r.1)
      = (s.Allow store₂ identifier now).map (fun r => r.1) := by
  simp only [TokenBucketStore.Allow, TokenBucketStore.getBucketState, h]
  cases store₂ (tokenBucketKey identifier) with
  | none =>
    split
    all_goals try rfl
    all_goals split <;> rfl
  | some blob =>
    cases blob with
    | bad => rfl
    | good st =>
      split
      all_goals try rfl
      all_goals split <;> rfl

/-- The leaky-bucket decision (and error status) depends only on the
blob stored under its own key. -/
theorem leakyBucket_decision_congr (s : LeakyBucketStore)
    {store₁ store₂ : BucketStore LeakyBucketState} (identifier : String) (now : ℚ)
    (h : store₁ (leakyBucketKey identifier) = store₂ (leakyBucketKey identifier)) :
    (s.Allow store₁ identifier now).map (fun r => r.1)
      = (s.Allow store₂ identifier now).map (fun r => r.1) := by
  simp only [LeakyBucketStore.Allow, LeakyBucketStore.getBucketState, h]
  cases store₂ (leakyBucketKey identifier) with
  | none =>
    split
    all_goals try rfl
    all_goals split <;> rfl
  | some blob =>
    cases blob with
    | bad => rfl
    | good st =>
      split
      all_goals try rfl
      all_goals split <;> rfl

/-- The token-bucket `Info` result depends only on its own key's blob. -/
theorem tokenBucket_info_congr (s : TokenBucketStore)
    {store₁ store₂ : BucketStore TokenBucketState} (identifier : String) (now : ℚ)
    (h : store₁ (tokenBucketKey identifier) = store₂ (tokenBucketKey identifier)) :
    s.GetRateLimitInfo store₁ identifier now = s.GetRateLimitInfo store₂ identifier now := by
  simp only [TokenBucketStore.GetRateLimitInfo, TokenBucketStore.getBucketState, h]

/-- The leaky-bucket `Info` result depends only on its own key's blob. -/
theorem leakyBucket_info_congr (s : LeakyBucketStore)
    {store₁ store₂ : BucketStore LeakyBucketState} (identifier : String) (now : ℚ)
    (h : store₁ (leakyBucketKey identifier) = store₂ (leakyBucketKey identifier)) :
    s.GetRateLimitInfo store₁ identifier now = s.GetRateLimitInfo store₂ identifier now := by
  simp only [LeakyBucketStore.GetRateLimitInfo, LeakyBucketStore.getBucketState, h]

/-- C8: partition isolation. Key construction is injective over
identifiers (shown by the `*Key_ne` lemmas used in the proof), and for
any two distinct identifiers, under every strategy an `Allow` call for
the first identifier leaves all of the second identifier's counters and
bucket state unchanged, and does not change the outcome of the second
identifier's `Allow` or `Info` (`Info` itself performs no writes: in
this embedding it does not return a store). -/
theorem partition_isolation (id₁ id₂ : String) (hne : id₁ ≠ id₂)
    (fw : FixedWindowStore) (sw : SlidingWindowStore)
    (tb : TokenBucketStore) (lb : LeakyBucketStore)
    (cst sst : CounterStore)
    (tst : BucketStore TokenBucketState) (lst : BucketStore LeakyBucketState)
    (t₁ t₂ : Int) (n₁ n₂ : ℚ) :
    ((∀ w, (fw.Allow cst id₁ t₁).2.count (fixedWindowKey id₂ w)
        = cst.count (fixedWindowKey id₂ w)) ∧
      (fw.Allow (fw.Allow cst id₁ t₁).2 id₂ t₂).1 = (fw.Allow cst id₂ t₂).1 ∧
      fw.GetRateLimitInfo (fw.Allow cst id₁ t₁).2 id₂ t₂ = fw.GetRateLimitInfo cst id₂ t₂) ∧
    ((∀ w, (sw.Allow sst id₁ t₁).2.1.count (slidingWindowKey id₂ w)
        = sst.count (slidingWindowKey id₂ w)) ∧
      (sw.Allow (sw.Allow sst id₁ t₁).2.1 id₂ t₂).1 = (sw.Allow sst id₂ t₂).1 ∧
      sw.GetRateLimitInfo (sw.Allow sst id₁ t₁).2.1 id₂ t₂
        = sw.GetRateLimitInfo sst id₂ t₂) ∧
    (∀ b store', tb.Allow tst id₁ n₁ = .ok (b, store') →
      store' (tokenBucketKey id₂) = tst (tokenBucketKey id₂) ∧
      (tb.Allow store' id₂ n₂).map (fun r => r.1)
        = (tb.Allow tst id₂ n₂).map (fun r => r.1) ∧
      tb.GetRateLimitInfo store' id₂ n₂ = tb.GetRateLimitInfo tst id₂ n₂) ∧
    (∀ b store', lb.Allow lst id₁ n₁ = .ok (b, store') →
      store' (leakyBucketKey id₂) = lst (leakyBucketKey id₂) ∧
      (lb.Allow store' id₂ n₂).map (fun r => r.1)
        = (lb.Allow lst id₂ n₂).map (fun r => r.1) ∧
      lb.GetRateLimitInfo store' id₂ n₂ = lb.GetRateLimitInfo lst id₂ n₂) := by
  have hfw : ∀ w, (fw.Allow cst id₁ t₁).2.count (fixedWindowKey id₂ w)
      = cst.count (fixedWindowKey id₂ w) :=
    fun w => fixedWindow_allow_frame fw cst id₁ t₁ _ (fixedWindowKey_ne (Ne.symm hne) w _)
  have hsw : ∀ w, (sw.Allow sst id₁ t₁).2.1.count (slidingWindowKey id₂ w)
      = sst.count (slidingWindowKey id₂ w) :=
    fun w => slidingWindow_allow_frame sw sst id₁ t₁ _ (slidingWindowKey_ne (Ne.symm hne) w _)
  refine ⟨⟨hfw, ?_, ?_⟩, ⟨hsw, ?_, ?_⟩, ?_, ?_⟩
  · exact fixedWindow_decision_congr fw id₂ t₂ (hfw _)
  · exact fixedWindow_info_congr fw id₂ t₂ (hfw _)
  · exact slidingWindow_decision_congr sw id₂ t₂ (hsw _) (hsw _)
  · exact slidingWindow_info_congr sw id₂ t₂ (hsw _) (hsw _)
  · intro b store' hrun
    have hkey : store' (tokenBucketKey id₂) = tst (tokenBucketKey id₂) :=
      tokenBucket_allow_frame tb tst id₁ n₁ b store' hrun _ (tokenBucketKey_ne (Ne.symm hne))
    exact ⟨hkey, tokenBucket_decision_congr tb id₂ n₂ hkey,
      tokenBucket_info_congr tb id₂ n₂ hkey⟩
  · intro b store' hrun
    have hkey : store' (leakyBucketKey id₂) = lst (leakyBucketKey id₂) :=
      leakyBucket_allow_frame lb lst id₁ n₁ b store' hrun _ (leakyBucketKey_ne (Ne.symm hne))
    exact ⟨hkey, leakyBucket_decision_congr lb id₂ n₂ hkey,
      leakyBucket_info_congr lb id₂ n₂ hkey⟩

/-- Witness for C8 with identifiers "a" and "b", empty stores, window
1 s, token bucket `{rate 1, burst 5}`, leaky bucket
`{capacity 5, leakRate 1}`, all calls at time 0. -/
theorem partition_isolation_witness :
    ("a" : String) ≠ "b" ∧
    ((FixedWindowStore.Allow { limit := 1, windowSize := 10 ^ 9 }
        { count := fun _ => 0, ttl := fun _ => none } "a" 0).2.count (fixedWindowKey "b" 0)
      = ({ count := fun _ => 0, ttl := fun _ => none } : CounterStore).count
          (fixedWindowKey "b" 0)) ∧
    ((FixedWindowStore.Allow { limit := 1, windowSize := 10 ^ 9 }
        (FixedWindowStore.Allow { limit := 1, windowSize := 10 ^ 9 }
          { count := fun _ => 0, ttl := fun _ => none } "a" 0).2 "b" 0).1
      = (FixedWindowStore.Allow { limit := 1, windowSize := 10 ^ 9 }
          { count := fun _ => 0, ttl := fun _ => none } "b" 0).1) ∧
    ((SlidingWindowStore.Allow { limit := 1, windowSize := 10 ^ 9 }
        (SlidingWindowStore.Allow { limit := 1, windowSize := 10 ^ 9 }
          { count := fun _ => 0, ttl := fun _ => none } "a" 0).2.1 "b" 0).1
      = (SlidingWindowStore.Allow { limit := 1, windowSize := 10 ^ 9 }
          { count := fun _ => 0, ttl := fun _ => none } "b" 0).1) ∧
    ((saveBucketState (fun _ => none) (tokenBucketKey "a")
        { tokens := min ((((5 : Int)) : ℚ) + ((0 : ℚ) - 0) * 1) (((5 : Int) : ℚ)) - 1,
          lastRefill := 0 }) (tokenBucketKey "b")
      = (fun _ => none : BucketStore TokenBucketState) (tokenBucketKey "b")) ∧
    ((TokenBucketStore.Allow { rate := 1, burst := 5, expiresIn := 10 ^ 9 }
        (saveBucketState (fun _ => none) (tokenBucketKey "a")
          { tokens := min ((((5 : Int)) : ℚ) + ((0 : ℚ) - 0) * 1) (((5 : Int) : ℚ)) - 1,
            lastRefill := 0 }) "b" 0).map (fun r => r.1)
      = (TokenBucketStore.Allow { rate := 1, burst := 5, expiresIn := 10 ^ 9 }
          (fun _ => none) "b" 0).map (fun r => r.1)) ∧
    ((LeakyBucketStore.Allow { capacity := 5, leakRate := 1, expiresIn := 10 ^ 9 }
        (saveBucketState (fun _ => none) (leakyBucketKey "a")
          { water := max 0 (0 - goTrunc (((0 : ℚ) - 0) * 1)) + 1, lastLeak := 0 }) "b" 0).map
          (fun r => r.1)
      = (LeakyBucketStore.Allow { capacity := 5, leakRate := 1, expiresIn := 10 ^ 9 }
          (fun _ => none) "b" 0).map (fun r => r.1)) := by
  have main := partition_isolation "a" "b" (by decide)
    { limit := 1, windowSize := 10 ^ 9 } { limit := 1, windowSize := 10 ^ 9 }
    { rate := 1, burst := 5, expiresIn := 10 ^ 9 }
    { capacity := 5, leakRate := 1, expiresIn := 10 ^ 9 }
    { count := fun _ => 0, ttl := fun _ => none } { count := fun _ => 0, ttl := fun _ => none }
    (fun _ => none) (fun _ => none) 0 0 0 0
  have htb := main.2.2.1 true
    (saveBucketState (fun _ => none) (tokenBucketKey "a")
      { tokens := min ((((5 : Int)) : ℚ) + ((0 : ℚ) - 0) * 1) (((5 : Int) : ℚ)) - 1,
        lastRefill := 0 })
    (by with_unfolding_all rfl)
  have hlb := main.2.2.2 true
    (saveBucketState (fun _ => none) (leakyBucketKey "a")
      { water := max 0 (0 - goTrunc (((0 : ℚ) - 0) * 1)) + 1, lastLeak := 0 })
    (by with_unfolding_all rfl)
  exact ⟨by decide, main.1.1 0, main.1.2.1, main.2.1.2.1, htb.1, htb.2.1, hlb.2.1⟩
